import Mathlib

/-!
Verification of the gosette HTTP test server (src/httptestserver.go).

The development shallowly embeds the package: byte sequences are Lean
`String`s (Go converts `[]byte` to `string` byte-for-byte; all concrete
inputs here are ASCII), Go errors are a small inductive carrying the
message structure produced by `fmt.Errorf("...: %w", err)`, and the
stateful `http.ResponseWriter` sinks of the multi-target writer are
explicit `Sink` states threaded through the handler.  Effects on a sink
are additionally logged in the sink's `calls` field, and the multi-target
writer returns the ordered list of (target index, call) events it
performs, which is the natural observable for the "invoked on every sink
in order / first failure wins" contracts.
-/

/-- Model of a Go `error` value.  `wrap pre e` models
`fmt.Errorf(pre ++ "%w", e)`: its `Error()` string is the concatenation
and it wraps `e`. -/
inductive GoErr where
  | base (msg : String)
  | wrap (preMsg : String) (cause : GoErr)
deriving DecidableEq, Repr

/-- The `Error()` string of a modelled Go error. -/
def GoErr.errString : GoErr → String
  | .base m => m
  | .wrap p c => p ++ c.errString

/-- A call received by an `http.ResponseWriter` sink. -/
inductive WCall where
  | headerAdd (k v : String)
  | headerSet (k v : String)
  | writeHeader (status : Nat)
  | write (data : String)
deriving DecidableEq, Repr

/-- Model of `http.Header.Add` on a header map, kept as an association
list in insertion order (Go ranges over the map in unspecified order; the
model fixes the insertion order; no claim depends on map range order). -/
def headersAddKV : List (String × List String) → String → String → List (String × List String)
  | [], k, v => [(k, [v])]
  | (k', vs) :: rest, k, v =>
      if k' = k then (k', vs ++ [v]) :: rest else (k', vs) :: headersAddKV rest k v

/-- Model of `http.Header.Set`. -/
def headersSetKV : List (String × List String) → String → String → List (String × List String)
  | [], k, v => [(k, [v])]
  | (k', vs) :: rest, k, v =>
      if k' = k then (k', [v]) :: rest else (k', vs) :: headersSetKV rest k v

/-- Model of `http.Header.Get` (first value, or "" when absent). -/
def headersGet (hs : List (String × List String)) (k : String) : String :=
  match hs.find? (fun p => p.1 = k) with
  | some (_, v :: _) => v
  | _ => ""

/-- State of one `http.ResponseWriter` target of the multi-target writer.
With `writeScript = []` the sink behaves like `httptest.ResponseRecorder`:
every `Write` succeeds returning `(len(data), nil)`, the first
`WriteHeader` latches the status code, and the body accumulates.  A
non-empty `writeScript` supplies the results of the next `Write` calls
(modelling a failing client connection, as the mocked writer in the
repository's tests does).  `calls` logs every call the sink received. -/
structure Sink where
  code : Nat
  headers : List (String × List String)
  bodyOut : String
  wroteHeader : Bool
  writeScript : List (Nat × Option GoErr)
  calls : List WCall
deriving DecidableEq, Repr

/-- `httptest.NewRecorder()`: code 200, empty headers and body. -/
def newRecorder : Sink := ⟨200, [], "", false, [], []⟩

/-- A client connection on which every write succeeds. -/
def okClient : Sink := ⟨200, [], "", false, [], []⟩

/-- `Header().Add` on one sink. -/
def Sink.doHeaderAdd (s : Sink) (k v : String) : Sink :=
  { s with headers := headersAddKV s.headers k v, calls := s.calls ++ [.headerAdd k v] }

/-- `Header().Set` on one sink. -/
def Sink.doHeaderSet (s : Sink) (k v : String) : Sink :=
  { s with headers := headersSetKV s.headers k v, calls := s.calls ++ [.headerSet k v] }

/-- `WriteHeader` on one sink (recorder semantics: only the first call
latches the code). -/
def Sink.doWriteHeader (s : Sink) (c : Nat) : Sink :=
  { s with calls := s.calls ++ [.writeHeader c],
           code := if s.wroteHeader then s.code else c,
           wroteHeader := true }

/-- The `(n, err)` result the sink's next `Write` call reports. -/
def Sink.writeResult (s : Sink) (data : String) : Nat × Option GoErr :=
  match s.writeScript with
  | [] => (data.length, none)
  | r :: _ => r

/-- `Write` on one sink: returns the scripted (or default success) result
and the updated sink state. -/
def Sink.doWrite (s : Sink) (data : String) : Sink × (Nat × Option GoErr) :=
  ({ s with calls := s.calls ++ [.write data],
            bodyOut := s.bodyOut ++ data,
            code := if s.wroteHeader then s.code else 200,
            wroteHeader := true,
            writeScript := s.writeScript.tail }, s.writeResult data)

/-- An observable event of the multi-target writer: which target (by
position) received which call. -/
inductive MWEvent where
  | evHeaderAdd (target : Nat) (k v : String)
  | evWriteHeader (target : Nat) (status : Nat)
  | evWrite (target : Nat) (data : String)
deriving DecidableEq, Repr

/-- `multiTargetHTTPResponseWriter.Header().Set(k, v)`: `Header()` returns
the header map of the first target (or a fresh detached map when there are
no targets), so `Set` mutates only the first target. -/
def mtwHeaderSet (ts : List Sink) (k v : String) : List Sink :=
  match ts with
  | [] => []
  | t :: rest => t.doHeaderSet k v :: rest

/-- `multiTargetHTTPResponseWriter.headersAdd`: calls `Header().Add` on
every target. -/
def mtwHeadersAdd (ts : List Sink) (k v : String) : List Sink :=
  ts.map (fun t => t.doHeaderAdd k v)

/-- Loop body of `multiTargetHTTPResponseWriter.WriteHeader`, with the
index of the current target, returning updated sinks and the emitted
events. -/
def mtwWriteHeaderFrom (c : Nat) (i : Nat) : List Sink → List Sink × List MWEvent
  | [] => ([], [])
  | t :: rest =>
      let out := mtwWriteHeaderFrom c (i + 1) rest
      (t.doWriteHeader c :: out.1, .evWriteHeader i c :: out.2)

/-- `multiTargetHTTPResponseWriter.WriteHeader(c)`: calls `WriteHeader`
on each target in order, unconditionally. -/
def mtwWriteHeader (ts : List Sink) (c : Nat) : List Sink × List MWEvent :=
  mtwWriteHeaderFrom c 0 ts

/-- Loop body of `multiTargetHTTPResponseWriter.Write`: `r, err = 0, nil`;
for each target `r, err = target.Write(data)`; return at the first
failure; otherwise return the last result. -/
def mtwWriteFrom (data : String) (i : Nat) :
    List Sink → List Sink × List MWEvent × (Nat × Option GoErr)
  | [] => ([], [], (0, none))
  | t :: rest =>
      let p := t.doWrite data
      if p.2.2.isSome then
        (p.1 :: rest, [.evWrite i data], p.2)
      else
        match rest with
        | [] => ([p.1], [.evWrite i data], p.2)
        | r :: rs =>
            let out := mtwWriteFrom data (i + 1) (r :: rs)
            (p.1 :: out.1, .evWrite i data :: out.2.1, out.2.2)

/-- `multiTargetHTTPResponseWriter.Write(data)`. -/
def mtwWrite (ts : List Sink) (data : String) :
    List Sink × List MWEvent × (Nat × Option GoErr) :=
  mtwWriteFrom data 0 ts

/-- Value of one hex digit, as in `net/url.unhex`. -/
def hexDigit (c : Char) : Option Nat :=
  if '0' ≤ c ∧ c ≤ '9' then some (c.toNat - '0'.toNat)
  else if 'a' ≤ c ∧ c ≤ 'f' then some (c.toNat - 'a'.toNat + 10)
  else if 'A' ≤ c ∧ c ≤ 'F' then some (c.toNat - 'A'.toNat + 10)
  else none

/-- `net/url.QueryUnescape` on ASCII text: `%XX` decodes, `+` becomes a
space, a malformed escape is an error (`none`). -/
def unescapeQueryChars : List Char → Option (List Char)
  | [] => some []
  | '%' :: rest =>
      match rest with
      | a :: b :: rest2 =>
          match hexDigit a, hexDigit b with
          | some ha, some hb =>
              (unescapeQueryChars rest2).map (fun l => Char.ofNat (16 * ha + hb) :: l)
          | _, _ => none
      | _ => none
  | '+' :: rest => (unescapeQueryChars rest).map (fun l => ' ' :: l)
  | c :: rest => (unescapeQueryChars rest).map (fun l => c :: l)

/-- `url.Values` is a map from key to ordered values; the model keeps keys
in first-appearance order.  `valuesAdd` is `m[key] = append(m[key], value)`. -/
def valuesAdd : List (String × List String) → String → String → List (String × List String)
  | [], k, v => [(k, [v])]
  | (k', vs) :: rest, k, v =>
      if k' = k then (k', vs ++ [v]) :: rest else (k', vs) :: valuesAdd rest k v

/-- `strings.Cut(s, sep)` on character lists: text before the first `sep`,
and the remainder after it when present. -/
def cutOn (sep : Char) : List Char → List Char × Option (List Char)
  | [] => ([], none)
  | c :: rest =>
      if c = sep then ([], some rest)
      else
        let out := cutOn sep rest
        (c :: out.1, out.2)

/-- Split on a separator character; mirrors the iteration of
`url.ParseQuery`'s `strings.Cut` loop (empty segments are produced and
later skipped, exactly as the loop skips empty keys). -/
def splitOnChar (sep : Char) : List Char → List (List Char)
  | [] => [[]]
  | c :: rest =>
      let out := splitOnChar sep rest
      if c = sep then [] :: out
      else
        match out with
        | [] => [[c]]
        | seg :: segs => (c :: seg) :: segs

/-- One iteration of the `url.ParseQuery` loop: reject a semicolon in the
segment, skip an empty segment, cut at the first `=`, unescape key and
value, add to the values. -/
def parseSeg (vs : List (String × List String)) (seg : List Char) :
    Option (List (String × List String)) :=
  if seg.contains ';' then none
  else if seg = [] then some vs
  else
    let cut := cutOn '=' seg
    match unescapeQueryChars cut.1, unescapeQueryChars (cut.2.getD []) with
    | some k, some v => some (valuesAdd vs (List.asString k) (List.asString v))
    | _, _ => none

/-- `net/url.ParseQuery` (ASCII model).  Go latches the first error but
keeps looping; since the caller only propagates the error, the model
returns `none` whenever any segment is malformed. -/
def parseQuery (s : String) : Option (List (String × List String)) :=
  (splitOnChar '&' s.toList).foldlM parseSeg []

/-- Uppercase hex digit, as `url.QueryEscape` emits. -/
def hexUpper (n : Nat) : Char :=
  if n < 10 then Char.ofNat ('0'.toNat + n) else Char.ofNat ('A'.toNat + n - 10)

/-- `url.QueryEscape` of one ASCII character: alphanumerics and
`-`, `_`, `.`, `~` are kept, space becomes `+`, the rest become `%XX`. -/
def queryEscapeChar (c : Char) : List Char :=
  if c.isAlphanum ∨ c = '-' ∨ c = '_' ∨ c = '.' ∨ c = '~' then [c]
  else if c = ' ' then ['+']
  else ['%', hexUpper (c.toNat / 16), hexUpper (c.toNat % 16)]

/-- `url.QueryEscape` (ASCII model). -/
def queryEscape (s : String) : String :=
  List.asString (s.toList.flatMap queryEscapeChar)

/-- Byte-lexicographic order on ASCII strings, as `sort.Strings` uses. -/
def strLeChars : List Char → List Char → Bool
  | [], _ => true
  | _ :: _, [] => false
  | a :: as, b :: bs => if a = b then strLeChars as bs else decide (a.toNat < b.toNat)

/-- Insert an entry into a key-sorted association list. -/
def insertSorted (p : String × List String) :
    List (String × List String) → List (String × List String)
  | [] => [p]
  | q :: rest =>
      if strLeChars p.1.toList q.1.toList then p :: q :: rest else q :: insertSorted p rest

/-- Sort an association list by key (`url.Values.Encode` sorts its keys). -/
def sortByKey (l : List (String × List String)) : List (String × List String) :=
  l.foldr insertSorted []

/-- `url.Values.Encode`: keys sorted, each value escaped, joined with
`&`. -/
def encodeValues (vs : List (String × List String)) : String :=
  String.intercalate "&"
    ((sortByKey vs).flatMap (fun p => p.2.map (fun v => queryEscape p.1 ++ "=" ++ queryEscape v)))

/-- `PredefinedServerResponse`: status, headers, body. -/
structure PredefinedServerResponse where
  status : Nat
  headers : List (String × List String)
  body : String
deriving DecidableEq, Repr

/-- `ServerRecord`, with the recorder's final observable state as the
recorded response (the Go record holds a pointer to the recorder, so a
popped record shows the recorder's state after all writes of the
request, including the ones `handleInternalError` performs after the
append). -/
structure ServerRecord where
  requestBody : String
  response : Sink
  serverError : Option GoErr
deriving DecidableEq, Repr

/-- `HTTPTestServer`: the response queue and the record store. -/
structure HTTPTestServer where
  responses : List PredefinedServerResponse
  records : List ServerRecord
deriving DecidableEq, Repr

/-- The state `NewHTTPTestServer` starts from: both queues empty. -/
def emptyServer : HTTPTestServer := ⟨[], []⟩

/-- `PushPredefinedServerResponse`: append to the tail of the queue. -/
def pushPredefinedServerResponse (s : HTTPTestServer) (resp : PredefinedServerResponse) :
    HTTPTestServer :=
  { s with responses := s.responses ++ [resp] }

/-- Push a whole list of predefined responses, in order. -/
def pushAll (s : HTTPTestServer) (l : List PredefinedServerResponse) : HTTPTestServer :=
  l.foldl pushPredefinedServerResponse s

/-- `PopServerRecord`: pop the first record if any, else return nil. -/
def popServerRecord (s : HTTPTestServer) : Option ServerRecord × HTTPTestServer :=
  match s.records with
  | [] => (none, s)
  | r0 :: rest => (some r0, { s with records := rest })

/-- `ClearPredefinedServerResponses`. -/
def clearPredefinedServerResponses (s : HTTPTestServer) : HTTPTestServer :=
  { s with responses := [] }

/-- `ClearServerRecords`. -/
def clearServerRecords (s : HTTPTestServer) : HTTPTestServer :=
  { s with records := [] }

/-- `Clear`: clear responses, then records. -/
def clearServer (s : HTTPTestServer) : HTTPTestServer :=
  clearServerRecords (clearPredefinedServerResponses s)

/-- `handleInternalError` as written at src/httptestserver.go lines
260-269 (the first copy in the file): set the record's error, append the
record, set `Content-Type: text/plain` on the writer's header map, write
status 500 and the error text.  `buf` is the record's request-body buffer
at this point; the appended record's response is the final state of the
first target (the recorder at every call site), because the Go record
aliases the recorder. -/
def handleInternalErrorV1 (records : List ServerRecord) (buf : String) (err : GoErr)
    (ts : List Sink) : List ServerRecord × List Sink :=
  let ts1 := mtwHeaderSet ts "Content-Type" "text/plain"
  let ts2 := (mtwWriteHeader ts1 500).1
  let ts3 := (mtwWrite ts2 err.errString).1
  (records ++ [⟨buf, ts3.headD newRecorder, some err⟩], ts3)

/-- `handleInternalError` as written at src/httptestserver.go lines
651-659 (the second copy in the file): identical except that it never
sets `Content-Type: text/plain`. -/
def handleInternalErrorV2 (records : List ServerRecord) (buf : String) (err : GoErr)
    (ts : List Sink) : List ServerRecord × List Sink :=
  let ts2 := (mtwWriteHeader ts 500).1
  let ts3 := (mtwWrite ts2 err.errString).1
  (records ++ [⟨buf, ts3.headD newRecorder, some err⟩], ts3)

/-- Outcome of reading an HTTP request body stream to the end: either all
its bytes, or the bytes delivered before a read error together with that
error.  The tee installed by `ServeHTTP` copies exactly the delivered
bytes into the record's buffer. -/
inductive ReadOutcome where
  | ok (bytes : String)
  | fail (got : String) (e : GoErr)
deriving DecidableEq, Repr

/-- The inputs of one handled request that the handler's control flow
depends on: method, the raw `Content-Type` header value ("" when
absent), the URL's raw query string, and the body stream's behaviour. -/
structure Request where
  method : String
  contentType : String
  query : String
  body : ReadOutcome
deriving DecidableEq, Repr

/-- The exact string the skip-drain check compares against. -/
def formCT : String := "application/x-www-form-urlencoded"

/-- Line 99: `r.Body = io.NopCloser(io.TeeReader(r.Body, buf))` — the
field now holds a non-nil interface value whatever it held before. -/
def teeBody (b : ReadOutcome) : Option ReadOutcome := some b

/-- The condition of line 102:
`r.Body != nil && r.Header.Get("Content-Type") != "application/x-www-form-urlencoded"`. -/
def drainCondition (b : Option ReadOutcome) (ct : String) : Bool :=
  b.isSome && (ct != formCT)

/-- ASCII lowercase, for media-type comparison. -/
def asciiLower (c : Char) : Char :=
  if 'A' ≤ c ∧ c ≤ 'Z' then Char.ofNat (c.toNat + 32) else c

/-- Text before the first `;`. -/
def takeUntilSemi : List Char → List Char
  | [] => []
  | c :: rest => if c = ';' then [] else c :: takeUntilSemi rest

/-- Trim surrounding spaces. -/
def trimSpaces (l : List Char) : List Char :=
  ((l.dropWhile (fun c => c = ' ')).reverse.dropWhile (fun c => c = ' ')).reverse

/-- `mime.ParseMediaType` restricted to what `ParseForm` needs: the
lowercased type/subtype before any parameter; an absent `Content-Type`
defaults to `application/octet-stream`. -/
def mediaType (ct : String) : String :=
  let base := if ct = "" then "application/octet-stream" else ct
  List.asString ((trimSpaces (takeUntilSemi base.toList)).map asciiLower)

/-- `ParseForm` reads the request body only for these methods. -/
def bodyReadingMethod (m : String) : Bool :=
  m == "POST" || m == "PUT" || m == "PATCH"

/-- Stand-in for the error `url.ParseQuery` reports on a malformed body
or query (its exact message is irrelevant to every claim; only the
wrapping prefix added by `ServeHTTP` is observed). -/
def formParseErrInner : GoErr := GoErr.base "invalid form data"

/-- Stand-in for the error `url.ParseQuery` reports on a malformed URL
query string. -/
def queryParseErrInner : GoErr := GoErr.base "invalid query string"

/-- Model of `r.ParseForm()` (net/http): for POST/PUT/PATCH with a
form-urlencoded media type, read the rest of the body (through the tee)
and parse it; then parse the URL query string; a body error takes
precedence.  `remaining` is the unread part of the body stream when
`ParseForm` runs; the second component is the bytes `ParseForm` drew
through the tee. -/
def parseFormModel (r : Request) (remaining : ReadOutcome) : Option GoErr × String :=
  let bodyPart : Option GoErr × String :=
    if bodyReadingMethod r.method && (mediaType r.contentType == formCT) then
      match remaining with
      | .ok bytes =>
          (match parseQuery bytes with
           | some _ => none
           | none => some formParseErrInner, bytes)
      | .fail got e => (some e, got)
    else (none, "")
  let queryErr : Option GoErr :=
    match parseQuery r.query with
    | some _ => none
    | none => some queryParseErrInner
  (match bodyPart.1 with
   | some e => some e
   | none => queryErr, bodyPart.2)

/-- How one handled request terminated. -/
inductive HandlerOutcome where
  | success
  | errBodyRead (werr : GoErr)
  | errParseForm (werr : GoErr)
  | errWrite (werr : GoErr)
deriving DecidableEq, Repr

def bodyReadErrText : String := "test server failed to read the request body: "
def parseFormErrText : String := "test server failed to parse query string and form data: "
def writeRespErrText : String := "test server failed to write the predefined response: "

/-- The synthetic default response built at lines 127-129: 404, no
headers, empty body. -/
def syntheticNotFound : PredefinedServerResponse := ⟨404, [], ""⟩

/-- Lines 143-147: add every predefined header value to every target. -/
def writeAllHeaders (ts : List Sink) (hs : List (String × List String)) : List Sink :=
  hs.foldl (fun ts p => p.2.foldl (fun ts v => mtwHeadersAdd ts p.1 v) ts) ts

/-- Lines 126-140: the response to serve (head of the queue, else the
synthetic 404) and the queue afterwards (head popped only when more than
one entry remains). -/
def serveSelect (srv : HTTPTestServer) :
    PredefinedServerResponse × List PredefinedServerResponse :=
  (match srv.responses with
   | [] => syntheticNotFound
   | rsp :: _ => rsp,
   if srv.responses.length > 1 then srv.responses.tail else srv.responses)

/-- Lines 142-167: emit the selected response through the multi-target
writer — headers, status, then the body when non-empty — committing the
record on success and entering the error path on a write failure. -/
def serveEmit (records : List ServerRecord) (buf : String)
    (resp : PredefinedServerResponse) (mw : List Sink) :
    List ServerRecord × List Sink × HandlerOutcome :=
  let mw2 := (mtwWriteHeader (writeAllHeaders mw resp.headers) resp.status).1
  if resp.body.length > 0 then
    let w := mtwWrite mw2 resp.body
    match w.2.2.2 with
    | some e =>
        let werr := GoErr.wrap writeRespErrText e
        let out := handleInternalErrorV1 records buf werr w.1
        (out.1, out.2, .errWrite werr)
    | none => (records ++ [⟨buf, w.1.headD newRecorder, none⟩], w.1, .success)
  else (records ++ [⟨buf, mw2.headD newRecorder, none⟩], mw2, .success)

/-- Lines 115-167, the part of `ServeHTTP` after the drain step: parse
query string and form data (entering the error path on failure), then
select and emit the response.  `buf0` is what the drain step already
copied into the tee buffer, `remaining` the unread rest of the body
stream. -/
def serveAfterDrain (srv : HTTPTestServer) (r : Request) (mw : List Sink)
    (buf0 : String) (remaining : ReadOutcome) :
    HTTPTestServer × List Sink × HandlerOutcome :=
  let pf := parseFormModel r remaining
  let buf := buf0 ++ pf.2
  match pf.1 with
  | some e =>
      let werr := GoErr.wrap parseFormErrText e
      let out := handleInternalErrorV1 srv.records buf werr mw
      ({ srv with records := out.1 }, out.2, .errParseForm werr)
  | none =>
      let sel := serveSelect srv
      let out := serveEmit srv.records buf sel.1 mw
      (⟨sel.2, out.1⟩, out.2.1, out.2.2)

/-- `HTTPTestServer.ServeHTTP` (first copy, src/httptestserver.go lines
82-167), as a function of the server state, the request, and the state of
the real client connection.  Returns the new server state, the final
states of the multi-target writer's two sinks `[recorder, client]`, and
the path taken. -/
def serveHTTP (srv : HTTPTestServer) (r : Request) (client : Sink) :
    HTTPTestServer × List Sink × HandlerOutcome :=
  let mw : List Sink := [newRecorder, client]
  if drainCondition (teeBody r.body) r.contentType then
    match r.body with
    | .fail got e =>
        let werr := GoErr.wrap bodyReadErrText e
        let out := handleInternalErrorV1 srv.records got werr mw
        ({ srv with records := out.1 }, out.2, .errBodyRead werr)
    | .ok bytes => serveAfterDrain srv r mw bytes (.ok "")
  else serveAfterDrain srv r mw "" r.body

/-- A plain GET request with no body, no query and no content type — the
request shape the repository's FIFO tests drive the server with. -/
def simpleGet : Request := ⟨"GET", "", "", .ok ""⟩

/-- The client-connection sink of the multi-target writer (its second
target). -/
def servedClient (ts : List Sink) : Sink := (ts.drop 1).headD okClient

/-- Run `n` plain GET requests against a fresh all-success client each;
returns the final server state and, per request in order, the final
client sink. -/
def runRequests (s : HTTPTestServer) : Nat → HTTPTestServer × List Sink
  | 0 => (s, [])
  | n + 1 =>
      let step := serveHTTP s simpleGet okClient
      let rest := runRequests step.1 n
      (rest.1, servedClient step.2.1 :: rest.2)

/-- Effect of lines 143-147 on a single sink: fold `Header().Add` over
the predefined headers (each target receives the same per-sink fold). -/
def sinkAddAll (t : Sink) (hs : List (String × List String)) : Sink :=
  hs.foldl (fun t p => p.2.foldl (fun t v => t.doHeaderAdd p.1 v) t) t

/-- What serving a predefined response does to one sink: add its headers,
write its status, write its body when non-empty. -/
def renderSink (t : Sink) (resp : PredefinedServerResponse) : Sink :=
  let t2 := (sinkAddAll t resp.headers).doWriteHeader resp.status
  if resp.body.length > 0 then (t2.doWrite resp.body).1 else t2

/-- The bytes the tee accumulates into the record's request-body buffer
over a whole request: what the drain step reads, plus what `ParseForm`
reads. -/
def teeCaptured (r : Request) : String :=
  if drainCondition (teeBody r.body) r.contentType then
    match r.body with
    | .ok bytes => bytes ++ (parseFormModel r (.ok "")).2
    | .fail got _ => got
  else (parseFormModel r r.body).2

/-- A POST request carrying a form-urlencoded body. -/
def formPost (b : String) : Request := ⟨"POST", formCT, "", .ok b⟩

/-- The error recorded for each terminal path of the handler. -/
def errOf : HandlerOutcome → Option GoErr
  | .success => none
  | .errBodyRead w => some w
  | .errParseForm w => some w
  | .errWrite w => some w

/-- Position of the first sink whose next `Write` reports a failure. -/
def firstFailIdx (data : String) : List Sink → Option Nat
  | [] => none
  | t :: rest =>
      if (t.writeResult data).2.isSome then some 0
      else (firstFailIdx data rest).map (fun j => j + 1)

/-- How many sinks the multi-target `Write` attempts: up to and
including the first failing one, or all of them. -/
def cutLen (data : String) (ts : List Sink) : Nat :=
  match firstFailIdx data ts with
  | some j => j + 1
  | none => ts.length

/-- Concrete fixtures used by the witness theorems. -/
def respA : PredefinedServerResponse := ⟨200, [("Content-Type", ["text/plain"])], "hello"⟩

def respB : PredefinedServerResponse := ⟨204, [], ""⟩

def errBoom : GoErr := GoErr.base "boom"

/-- A sink whose next write fails (like the mocked response writer in the
repository's tests). -/
def failSink : Sink := ⟨200, [], "", false, [(0, some errBoom)], []⟩

/-- A concrete committed record. -/
def recX : ServerRecord := ⟨"", newRecorder, none⟩

/-- A request whose body stream fails immediately. -/
def badBodyReq : Request := ⟨"GET", "", "", .fail "" errBoom⟩

lemma mtwHeadersAdd_foldl_values (ts : List Sink) (k : String) (vs : List String) :
    vs.foldl (fun ts v => mtwHeadersAdd ts k v) ts
      = ts.map (fun t => vs.foldl (fun t v => t.doHeaderAdd k v) t) := by
  induction vs generalizing ts with
  | nil => simp
  | cons v vr ih =>
      simp only [List.foldl_cons]
      rw [ih]
      simp [mtwHeadersAdd, List.map_map, Function.comp]

lemma writeAllHeaders_eq_map (ts : List Sink) (hs : List (String × List String)) :
    writeAllHeaders ts hs = ts.map (fun t => sinkAddAll t hs) := by
  induction hs generalizing ts with
  | nil => simp [writeAllHeaders, sinkAddAll]
  | cons p hr ih =>
      simp only [writeAllHeaders, sinkAddAll, List.foldl_cons] at ih ⊢
      rw [mtwHeadersAdd_foldl_values, ih, List.map_map]
      simp [Function.comp]

lemma mtwWriteHeaderFrom_fst (c i : Nat) (ts : List Sink) :
    (mtwWriteHeaderFrom c i ts).1 = ts.map (fun t => t.doWriteHeader c) := by
  induction ts generalizing i with
  | nil => rfl
  | cons t rest ih => simp [mtwWriteHeaderFrom, ih]

lemma mtwWriteHeaderFrom_snd (c i : Nat) (ts : List Sink) :
    (mtwWriteHeaderFrom c i ts).2
      = (List.range ts.length).map (fun d => MWEvent.evWriteHeader (i + d) c) := by
  induction ts generalizing i with
  | nil => rfl
  | cons t rest ih =>
      simp [mtwWriteHeaderFrom, ih, List.range_succ_eq_map, List.map_map, Function.comp]
      intro a _
      omega

lemma foldl_headerAdd_writeScript (t : Sink) (k : String) (vs : List String) :
    (vs.foldl (fun t v => t.doHeaderAdd k v) t).writeScript = t.writeScript := by
  induction vs generalizing t with
  | nil => rfl
  | cons v vr ih =>
      rw [List.foldl_cons, ih]
      rfl

lemma sinkAddAll_writeScript (t : Sink) (hs : List (String × List String)) :
    (sinkAddAll t hs).writeScript = t.writeScript := by
  induction hs generalizing t with
  | nil => rfl
  | cons p hr ih =>
      simp only [sinkAddAll, List.foldl_cons] at ih ⊢
      rw [ih, foldl_headerAdd_writeScript]

lemma doWriteHeader_writeScript (t : Sink) (c : Nat) :
    (t.doWriteHeader c).writeScript = t.writeScript := rfl

lemma mtwWrite_two (a b : Sink) (d : String) :
    mtwWrite [a, b] d =
      if (a.writeResult d).2.isSome then
        ([(a.doWrite d).1, b], [MWEvent.evWrite 0 d], a.writeResult d)
      else
        ([(a.doWrite d).1, (b.doWrite d).1], [MWEvent.evWrite 0 d, MWEvent.evWrite 1 d],
         b.writeResult d) := by
  by_cases h : (a.writeResult d).2.isSome
  · simp [mtwWrite, mtwWriteFrom, h, Sink.doWrite]
  · by_cases h2 : (b.writeResult d).2.isSome <;>
      simp [mtwWrite, mtwWriteFrom, h, h2, Sink.doWrite]

lemma serveEmit_records_len (records : List ServerRecord) (buf : String)
    (resp : PredefinedServerResponse) (mw : List Sink) :
    (serveEmit records buf resp mw).1.length = records.length + 1 := by
  unfold serveEmit handleInternalErrorV1
  dsimp only
  repeat' split
  all_goals simp

lemma serveAfterDrain_records_last (srv : HTTPTestServer) (r : Request) (mw : List Sink)
    (buf0 : String) (remaining : ReadOutcome) :
    (serveAfterDrain srv r mw buf0 remaining).1.records
      = srv.records
          ++ [⟨buf0 ++ (parseFormModel r remaining).2,
               ((serveAfterDrain srv r mw buf0 remaining).2.1).headD newRecorder,
               errOf (serveAfterDrain srv r mw buf0 remaining).2.2⟩] := by
  unfold serveAfterDrain serveEmit handleInternalErrorV1 errOf
  dsimp only
  repeat' split
  all_goals simp_all

lemma serve_records_last (srv : HTTPTestServer) (r : Request) (client : Sink) :
    (serveHTTP srv r client).1.records
      = srv.records ++ [⟨teeCaptured r, ((serveHTTP srv r client).2.1).headD newRecorder,
                        errOf (serveHTTP srv r client).2.2⟩] := by
  unfold serveHTTP teeCaptured
  dsimp only
  split
  · split
    · rename_i got e heq
      simp [heq, handleInternalErrorV1, errOf]
    · rename_i bytes heq
      rw [heq]
      exact serveAfterDrain_records_last ..
  · exact serveAfterDrain_records_last ..

lemma mtwWriteHeader_two (a b : Sink) (c : Nat) :
    (mtwWriteHeader [a, b] c).1 = [a.doWriteHeader c, b.doWriteHeader c] := by
  simp [mtwWriteHeader, mtwWriteHeaderFrom_fst]

lemma writeHeadersPhase_two (a b : Sink) (resp : PredefinedServerResponse) :
    (mtwWriteHeader (writeAllHeaders [a, b] resp.headers) resp.status).1
      = [(sinkAddAll a resp.headers).doWriteHeader resp.status,
         (sinkAddAll b resp.headers).doWriteHeader resp.status] := by
  rw [writeAllHeaders_eq_map]
  simp [mtwWriteHeader, mtwWriteHeaderFrom_fst]

lemma serveEmit_success_shape (records : List ServerRecord) (buf : String)
    (resp : PredefinedServerResponse) (a b : Sink)
    (hs : (serveEmit records buf resp [a, b]).2.2 = HandlerOutcome.success) :
    serveEmit records buf resp [a, b]
      = (records ++ [⟨buf, renderSink a resp, none⟩],
         [renderSink a resp, renderSink b resp], HandlerOutcome.success) := by
  unfold serveEmit at hs ⊢
  dsimp only at hs ⊢
  rw [writeHeadersPhase_two, mtwWrite_two] at hs ⊢
  unfold renderSink
  by_cases hb0 : resp.body.length > 0
  · simp only [hb0, if_true] at hs ⊢
    by_cases hfa :
        ((((sinkAddAll a resp.headers).doWriteHeader resp.status).writeResult resp.body)).2.isSome
    · exfalso
      simp only [hfa, if_true] at hs
      split at hs
      · simp at hs
      · rename_i hnone
        rw [hnone] at hfa
        simp at hfa
    · by_cases hfb :
          ((((sinkAddAll b resp.headers).doWriteHeader resp.status).writeResult resp.body)).2.isSome
      · exfalso
        simp only [hfa, Bool.false_eq_true, if_false] at hs
        split at hs
        · simp at hs
        · rename_i hnone
          rw [hnone] at hfb
          simp at hfb
      · rw [Option.not_isSome_iff_eq_none] at hfb
        simp [hfa, hfb, hb0]
  · simp [hb0]

lemma serveEmit_ok_scripts (records : List ServerRecord) (buf : String)
    (resp : PredefinedServerResponse) (a b : Sink)
    (ha : a.writeScript = []) (hb : b.writeScript = []) :
    serveEmit records buf resp [a, b]
      = (records ++ [⟨buf, renderSink a resp, none⟩],
         [renderSink a resp, renderSink b resp], HandlerOutcome.success) := by
  have hra : ((sinkAddAll a resp.headers).doWriteHeader resp.status).writeResult resp.body
      = (resp.body.length, none) := by
    simp [Sink.writeResult, doWriteHeader_writeScript, sinkAddAll_writeScript, ha]
  have hrb : ((sinkAddAll b resp.headers).doWriteHeader resp.status).writeResult resp.body
      = (resp.body.length, none) := by
    simp [Sink.writeResult, doWriteHeader_writeScript, sinkAddAll_writeScript, hb]
  apply serveEmit_success_shape
  unfold serveEmit
  dsimp only
  rw [writeHeadersPhase_two, mtwWrite_two]
  by_cases hb0 : resp.body.length > 0 <;> simp [hb0, hra, hrb]

lemma serveAfterDrain_success_shape (srv : HTTPTestServer) (r : Request) (client : Sink)
    (buf0 : String) (remaining : ReadOutcome)
    (hs : (serveAfterDrain srv r [newRecorder, client] buf0 remaining).2.2
            = HandlerOutcome.success) :
    serveAfterDrain srv r [newRecorder, client] buf0 remaining
      = (⟨(serveSelect srv).2,
          srv.records ++ [⟨buf0 ++ (parseFormModel r remaining).2,
                          renderSink newRecorder (serveSelect srv).1, none⟩]⟩,
         [renderSink newRecorder (serveSelect srv).1, renderSink client (serveSelect srv).1],
         HandlerOutcome.success) := by
  unfold serveAfterDrain at hs ⊢
  dsimp only at hs ⊢
  split at hs
  · simp at hs
  · dsimp only at hs
    rw [serveEmit_success_shape _ _ _ _ _ hs]

lemma serve_success_shape (srv : HTTPTestServer) (r : Request) (client : Sink)
    (hs : (serveHTTP srv r client).2.2 = HandlerOutcome.success) :
    serveHTTP srv r client
      = (⟨(serveSelect srv).2,
          srv.records ++ [⟨teeCaptured r, renderSink newRecorder (serveSelect srv).1, none⟩]⟩,
         [renderSink newRecorder (serveSelect srv).1, renderSink client (serveSelect srv).1],
         HandlerOutcome.success) := by
  unfold serveHTTP at hs ⊢
  unfold teeCaptured
  dsimp only at hs ⊢
  split at hs
  · split at hs
    · simp at hs
    · rename_i hc x bytes heq
      rw [serveAfterDrain_success_shape _ _ _ _ _ hs, if_pos hc, if_pos hc, heq]
  · rename_i hc
    rw [serveAfterDrain_success_shape _ _ _ _ _ hs, if_neg hc, if_neg hc]
    simp

lemma serveHTTP_simpleGet (srv : HTTPTestServer) :
    serveHTTP srv simpleGet okClient
      = (⟨(serveSelect srv).2,
          srv.records ++ [⟨"", renderSink newRecorder (serveSelect srv).1, none⟩]⟩,
         [renderSink newRecorder (serveSelect srv).1, renderSink okClient (serveSelect srv).1],
         HandlerOutcome.success) := by
  have h1 : drainCondition (teeBody simpleGet.body) simpleGet.contentType = true := by decide
  have h2 : parseFormModel simpleGet (ReadOutcome.ok "") = (none, "") := by decide
  unfold serveHTTP
  dsimp only
  rw [h1]
  simp only [if_true]
  show serveAfterDrain srv simpleGet [newRecorder, okClient] "" (ReadOutcome.ok "") = _
  unfold serveAfterDrain
  rw [h2]
  dsimp only
  rw [serveEmit_ok_scripts _ _ _ _ _ rfl rfl]
  simp

lemma serveAfterDrain_responses_or (srv : HTTPTestServer) (r : Request) (mw : List Sink)
    (buf0 : String) (remaining : ReadOutcome) :
    (serveAfterDrain srv r mw buf0 remaining).1.responses = srv.responses ∨
    (serveAfterDrain srv r mw buf0 remaining).1.responses = (serveSelect srv).2 := by
  unfold serveAfterDrain
  dsimp only
  split
  · exact Or.inl rfl
  · exact Or.inr rfl

lemma serve_responses_or (srv : HTTPTestServer) (r : Request) (client : Sink) :
    (serveHTTP srv r client).1.responses = srv.responses ∨
    (serveHTTP srv r client).1.responses = (serveSelect srv).2 := by
  unfold serveHTTP
  dsimp only
  split
  · split
    · exact Or.inl rfl
    · exact serveAfterDrain_responses_or ..
  · exact serveAfterDrain_responses_or ..

lemma pushAll_def (s : HTTPTestServer) (l : List PredefinedServerResponse) :
    pushAll s l = ⟨s.responses ++ l, s.records⟩ := by
  induction l generalizing s with
  | nil => simp [pushAll]
  | cons a t ih =>
      show pushAll (pushPredefinedServerResponse s a) t = _
      rw [ih]
      simp [pushPredefinedServerResponse]

lemma runRequests_state (m : Nat) :
    ∀ (L : List PredefinedServerResponse) (R : List ServerRecord), L ≠ [] →
      (runRequests ⟨L, R⟩ m).1.responses = L.drop (min m (L.length - 1)) := by
  induction m with
  | zero => intro L R hL; simp [runRequests]
  | succ m ih =>
      intro L R hL
      rw [runRequests]
      dsimp only
      rw [serveHTTP_simpleGet]
      dsimp only
      rcases L with _ | ⟨a, t⟩
      · exact absurd rfl hL
      · rcases t with _ | ⟨b, t2⟩
        · have hsel : (serveSelect ⟨[a], R⟩).2 = [a] := by simp [serveSelect]
          rw [hsel, ih [a] _ (by simp)]
          simp
        · have hsel : (serveSelect ⟨a :: b :: t2, R⟩).2 = b :: t2 := by simp [serveSelect]
          rw [hsel, ih (b :: t2) _ (by simp)]
          simp [Nat.succ_min_succ]

lemma servedClient_two (a b : Sink) : servedClient [a, b] = b := rfl

lemma runRequests_served (m : Nat) :
    ∀ (L : List PredefinedServerResponse) (R : List ServerRecord) (i : Nat), L ≠ [] → i < m →
      ((runRequests ⟨L, R⟩ m).2)[i]?
        = (L[min i (L.length - 1)]?).map (fun resp => renderSink okClient resp) := by
  induction m with
  | zero => intro L R i hL him; omega
  | succ m ih =>
      intro L R i hL him
      rw [runRequests]
      dsimp only
      rw [serveHTTP_simpleGet]
      dsimp only
      rcases L with _ | ⟨a, t⟩
      · exact absurd rfl hL
      · rcases t with _ | ⟨b, t2⟩
        · have hsel : serveSelect ⟨[a], R⟩ = (a, [a]) := by simp [serveSelect]
          rw [hsel]
          rcases i with _ | i
          · simp [servedClient_two]
          · rw [List.getElem?_cons_succ, ih [a] _ i (by simp) (by omega)]
            simp
        · have hsel : serveSelect ⟨a :: b :: t2, R⟩ = (a, b :: t2) := by simp [serveSelect]
          rw [hsel]
          rcases i with _ | i
          · simp [servedClient_two]
          · rw [List.getElem?_cons_succ, ih (b :: t2) _ i (by simp) (by omega)]
            have harith : min (i + 1) ((a :: b :: t2).length - 1) = min i ((b :: t2).length - 1) + 1 := by
              simp [Nat.succ_min_succ]
            rw [harith, List.getElem?_cons_succ]

lemma doWrite_snd (t : Sink) (data : String) : (t.doWrite data).2 = t.writeResult data := rfl

lemma firstFailIdx_cons (data : String) (t : Sink) (rest : List Sink) :
    firstFailIdx data (t :: rest)
      = if (t.writeResult data).2.isSome then some 0
        else (firstFailIdx data rest).map (fun j => j + 1) := rfl

lemma cutLen_cons_fail (data : String) (t : Sink) (rest : List Sink)
    (h : (t.writeResult data).2.isSome = true) : cutLen data (t :: rest) = 1 := by
  simp [cutLen, firstFailIdx, h]

lemma cutLen_cons_ok (data : String) (t : Sink) (rest : List Sink)
    (h : (t.writeResult data).2.isSome = false) :
    cutLen data (t :: rest) = cutLen data rest + 1 := by
  cases hf : firstFailIdx data rest <;>
    simp [cutLen, firstFailIdx, h, hf]

lemma mtwWriteFrom_events (data : String) (i : Nat) (ts : List Sink) :
    (mtwWriteFrom data i ts).2.1
      = (List.range (cutLen data ts)).map (fun d => MWEvent.evWrite (i + d) data) := by
  induction ts generalizing i with
  | nil => simp [mtwWriteFrom, cutLen, firstFailIdx]
  | cons t rest ih =>
      by_cases h : ((t.doWrite data).2).2.isSome
      · rw [mtwWriteFrom.eq_def]
        dsimp only
        rw [if_pos h, cutLen_cons_fail data t rest h]
        simp [List.range_succ]
      · have h' : (t.writeResult data).2.isSome = false := by
          rw [doWrite_snd] at h
          simpa using h
        rw [mtwWriteFrom.eq_def]
        dsimp only
        rw [if_neg h]
        rcases rest with _ | ⟨r, rs⟩
        · have hcl : cutLen data [t] = 1 := by simp [cutLen, firstFailIdx, h']
          simp [hcl, List.range_succ]
        · dsimp only
          rw [ih (i + 1), cutLen_cons_ok data t (r :: rs) h', List.range_succ_eq_map]
          simp [List.map_map, Function.comp]
          intro a _
          omega

lemma mtwWriteFrom_result (data : String) (i : Nat) (ts : List Sink) :
    (mtwWriteFrom data i ts).2.2
      = (match firstFailIdx data ts with
         | some j => (ts[j]?.getD okClient).writeResult data
         | none =>
             match ts.getLast? with
             | some t => t.writeResult data
             | none => (0, none)) := by
  induction ts generalizing i with
  | nil => simp [mtwWriteFrom, firstFailIdx]
  | cons t rest ih =>
      by_cases h : ((t.doWrite data).2).2.isSome
      · have h' : (t.writeResult data).2.isSome = true := by rwa [doWrite_snd] at h
        rw [mtwWriteFrom.eq_def]
        dsimp only
        rw [if_pos h]
        simp [firstFailIdx, h', doWrite_snd]
      · have h' : (t.writeResult data).2.isSome = false := by
          rw [doWrite_snd] at h
          simpa using h
        rw [mtwWriteFrom.eq_def]
        dsimp only
        rw [if_neg h]
        rcases rest with _ | ⟨r, rs⟩
        · simp [firstFailIdx, h', doWrite_snd]
        · dsimp only
          rw [ih (i + 1)]
          cases hf : firstFailIdx data (r :: rs) with
          | none => simp [firstFailIdx_cons, h', hf, List.getLast?_cons_cons]
          | some j => simp [firstFailIdx_cons, h', hf]

lemma mtwWriteFrom_untouched (data : String) (i : Nat) (ts : List Sink) (m : Nat)
    (hm : cutLen data ts ≤ m) :
    (mtwWriteFrom data i ts).1[m]? = ts[m]? := by
  induction ts generalizing i m with
  | nil => simp [mtwWriteFrom]
  | cons t rest ih =>
      by_cases h : ((t.doWrite data).2).2.isSome
      · have h' : (t.writeResult data).2.isSome = true := by rwa [doWrite_snd] at h
        rw [cutLen_cons_fail data t rest h'] at hm
        rcases m with _ | m'
        · omega
        · rw [mtwWriteFrom.eq_def]
          dsimp only
          rw [if_pos h]
          simp
      · have h' : (t.writeResult data).2.isSome = false := by
          rw [doWrite_snd] at h
          simpa using h
        rw [mtwWriteFrom.eq_def]
        dsimp only
        rw [if_neg h]
        rcases rest with _ | ⟨r, rs⟩
        · have hcl : cutLen data [t] = 1 := by simp [cutLen, firstFailIdx, h']
          rw [hcl] at hm
          rcases m with _ | m'
          · omega
          · simp
        · rw [cutLen_cons_ok data t (r :: rs) h'] at hm
          rcases m with _ | m'
          · omega
          · dsimp only
            simp only [List.getElem?_cons_succ]
            exact ih (i + 1) m' (by omega)

lemma parseFormModel_ok_empty_snd (r : Request) :
    (parseFormModel r (ReadOutcome.ok "")).2 = "" := by
  unfold parseFormModel
  dsimp only
  split <;> rfl

lemma parseFormModel_formPost_snd (wire : String) :
    (parseFormModel (formPost wire) (ReadOutcome.ok wire)).2 = wire := by
  have hc : (bodyReadingMethod "POST" && (mediaType formCT == formCT)) = true := by decide
  unfold parseFormModel formPost
  dsimp only
  rw [if_pos hc]

/-- C2: for every handled request — success, body-read failure, form-parse
failure, or response-write failure — exactly one exchange record is
appended to the record store: its length grows by exactly one. -/
theorem claim_record_per_request (srv : HTTPTestServer) (r : Request) (client : Sink) :
    (serveHTTP srv r client).1.records.length = srv.records.length + 1 := by
  rw [serve_records_last]
  simp

/-- C9: the multi-target writer's WriteHeader is invoked on every sink, in
list order, unconditionally: the emitted event trace covers every target
position exactly once in order, and every sink's state receives the call
with no short-circuit. -/
theorem claim_writeHeader_all_sinks (ts : List Sink) (c : Nat) :
    (mtwWriteHeader ts c).2
        = (List.range ts.length).map (fun i => MWEvent.evWriteHeader i c) ∧
    (mtwWriteHeader ts c).1 = ts.map (fun t => t.doWriteHeader c) := by
  constructor
  · have h := mtwWriteHeaderFrom_snd c 0 ts
    simpa [mtwWriteHeader] using h
  · exact mtwWriteHeaderFrom_fst c 0 ts

/-- C5: the multi-target writer's Write attempts the sinks in list order;
at the first sink that reports a failure it stops — no write events for
later sinks, later sink states untouched — and returns that sink's result;
when no sink fails it returns the last sink's result, and with zero sinks
it returns count 0 and no failure. -/
theorem claim_write_first_failure_wins (ts : List Sink) (data : String) :
    (∀ j, firstFailIdx data ts = some j →
        (mtwWrite ts data).2.2 = (ts[j]?.getD okClient).writeResult data ∧
        (mtwWrite ts data).2.1
          = (List.range (j + 1)).map (fun i => MWEvent.evWrite i data) ∧
        ∀ m, j < m → (mtwWrite ts data).1[m]? = ts[m]?) ∧
    (firstFailIdx data ts = none →
        (mtwWrite ts data).2.1
          = (List.range ts.length).map (fun i => MWEvent.evWrite i data) ∧
        (ts = [] → (mtwWrite ts data).2.2 = (0, none)) ∧
        ∀ t, ts.getLast? = some t → (mtwWrite ts data).2.2 = t.writeResult data) := by
  constructor
  · intro j hj
    refine ⟨?_, ?_, ?_⟩
    · rw [mtwWrite, mtwWriteFrom_result, hj]
    · rw [mtwWrite, mtwWriteFrom_events]
      simp [cutLen, hj]
    · intro m hm
      rw [mtwWrite]
      refine mtwWriteFrom_untouched data 0 ts m ?_
      simp [cutLen, hj]
      omega
  · intro hn
    refine ⟨?_, ?_, ?_⟩
    · rw [mtwWrite, mtwWriteFrom_events]
      simp [cutLen, hn]
    · intro hts
      subst hts
      rfl
    · intro t ht
      rw [mtwWrite, mtwWriteFrom_result, hn, ht]

/-- C3 (divergence between the two copies of `handleInternalError` in
src/httptestserver.go): on error "PWNED" against a fresh recorder, the
first copy (lines 260-269) emits status 500 with `Content-Type:
text/plain` and the error text as body, and commits a record carrying the
error; the second copy (lines 651-659) emits the same status and body but
never sets the Content-Type header, contradicting the claim and the
repository's own TestHandleInternalError assertion. -/
theorem claim_error_response_shape :
    (((handleInternalErrorV1 [] "" (GoErr.base "PWNED") [newRecorder]).2.headD newRecorder).code
        = 500
      ∧ headersGet ((handleInternalErrorV1 [] "" (GoErr.base "PWNED")
            [newRecorder]).2.headD newRecorder).headers "Content-Type" = "text/plain"
      ∧ ((handleInternalErrorV1 [] "" (GoErr.base "PWNED") [newRecorder]).2.headD
            newRecorder).bodyOut = "PWNED"
      ∧ (handleInternalErrorV1 [] "" (GoErr.base "PWNED") [newRecorder]).1.map
            (fun sr => sr.serverError) = [some (GoErr.base "PWNED")]) ∧
    (((handleInternalErrorV2 [] "" (GoErr.base "PWNED") [newRecorder]).2.headD newRecorder).code
        = 500
      ∧ ((handleInternalErrorV2 [] "" (GoErr.base "PWNED") [newRecorder]).2.headD
            newRecorder).bodyOut = "PWNED"
      ∧ headersGet ((handleInternalErrorV2 [] "" (GoErr.base "PWNED")
            [newRecorder]).2.headD newRecorder).headers "Content-Type" = "") := by
  decide

/-- C7: popping from an empty record store returns the "no record" signal
and leaves the store unchanged; popping from a non-empty store returns
exactly the oldest record, removes it from the front, decreases the size
by one, and leaves the response queue untouched. -/
theorem claim_pop_record (s : HTTPTestServer) :
    (s.records = [] → popServerRecord s = (none, s)) ∧
    (∀ r0 rest, s.records = r0 :: rest →
        (popServerRecord s).1 = some r0 ∧
        (popServerRecord s).2.records = rest ∧
        (popServerRecord s).2.responses = s.responses ∧
        (popServerRecord s).2.records.length + 1 = s.records.length) := by
  constructor
  · intro h
    simp [popServerRecord, h]
  · intro r0 rest h
    simp [popServerRecord, h]

/-- Witness for C7 at concrete inputs. -/
theorem claim_pop_record_witness :
    popServerRecord emptyServer = (none, emptyServer) ∧
    (popServerRecord ⟨[respB], [recX]⟩).1 = some recX ∧
    (popServerRecord ⟨[respB], [recX]⟩).2.records = [] ∧
    (popServerRecord ⟨[respB], [recX]⟩).2.responses = [respB] ∧
    (popServerRecord ⟨[respB], [recX]⟩).2.records.length + 1 = 1 := by
  have h1 := (claim_pop_record emptyServer).1 rfl
  have h2 := (claim_pop_record ⟨[respB], [recX]⟩).2 recX [] rfl
  exact ⟨h1, h2.1, h2.2.1, h2.2.2.1, h2.2.2.2⟩

/-- C4: with an empty response queue, the queue stays empty on every path
(the synthetic 404 response is never stored), exactly one record is still
appended, and a request whose handling completes without an internal
failure is served the synthetic response: status 404, no headers, empty
body, on both the recorder and the client sink. -/
theorem claim_empty_queue_404 (srv : HTTPTestServer) (r : Request) (client : Sink)
    (h : srv.responses = []) :
    (serveHTTP srv r client).1.responses = [] ∧
    (serveHTTP srv r client).1.records.length = srv.records.length + 1 ∧
    ((serveHTTP srv r client).2.2 = HandlerOutcome.success →
        (serveHTTP srv r client).2.1
          = [renderSink newRecorder syntheticNotFound, renderSink client syntheticNotFound] ∧
        (serveHTTP srv r client).1.records
          = srv.records ++ [⟨teeCaptured r, renderSink newRecorder syntheticNotFound, none⟩]) := by
  have hsel : serveSelect srv = (syntheticNotFound, []) := by
    simp [serveSelect, h]
  refine ⟨?_, ?_, ?_⟩
  · rcases serve_responses_or srv r client with h1 | h1
    · rw [h1, h]
    · rw [h1, hsel]
  · rw [serve_records_last]
    simp
  · intro hs
    rw [serve_success_shape srv r client hs, hsel]
    exact ⟨rfl, rfl⟩

/-- Witness for C4 at concrete inputs. -/
theorem claim_empty_queue_404_witness :
    (serveHTTP emptyServer simpleGet okClient).1.responses = [] ∧
    (serveHTTP emptyServer simpleGet okClient).1.records.length = 1 ∧
    (serveHTTP emptyServer simpleGet okClient).2.1
      = [renderSink newRecorder syntheticNotFound, renderSink okClient syntheticNotFound] := by
  have h := claim_empty_queue_404 emptyServer simpleGet okClient rfl
  refine ⟨h.1, h.2.1, (h.2.2 ?_).1⟩
  rw [serveHTTP_simpleGet]

/-- C8: clearing the response queue resets it to empty — a subsequent
request without internal failure is served the empty-queue 404 response,
even if requests were previously served from a sticky single response —
while the record store is untouched; clearing the record store empties it
and leaves the response queue's contents unchanged. -/
theorem claim_clear_semantics (s : HTTPTestServer) (r : Request) (client : Sink) :
    (clearPredefinedServerResponses s).responses = [] ∧
    (clearPredefinedServerResponses s).records = s.records ∧
    ((serveHTTP (clearPredefinedServerResponses s) r client).2.2 = HandlerOutcome.success →
        (serveHTTP (clearPredefinedServerResponses s) r client).2.1
          = [renderSink newRecorder syntheticNotFound, renderSink client syntheticNotFound]) ∧
    (clearServerRecords s).records = [] ∧
    (clearServerRecords s).responses = s.responses := by
  refine ⟨rfl, rfl, ?_, rfl, rfl⟩
  intro hs
  have hsel : serveSelect (clearPredefinedServerResponses s) = (syntheticNotFound, []) := by
    simp [serveSelect, clearPredefinedServerResponses]
  rw [serve_success_shape _ _ _ hs, hsel]

/-- Witness for C8: a server that has been serving a sticky response, then
cleared. -/
theorem claim_clear_semantics_witness :
    (clearPredefinedServerResponses ⟨[respB], [recX]⟩).responses = [] ∧
    (serveHTTP (clearPredefinedServerResponses ⟨[respB], [recX]⟩) simpleGet okClient).2.1
      = [renderSink newRecorder syntheticNotFound, renderSink okClient syntheticNotFound] ∧
    (clearServerRecords ⟨[respB], [recX]⟩).records = [] ∧
    (clearServerRecords ⟨[respB], [recX]⟩).responses = [respB] := by
  have h := claim_clear_semantics ⟨[respB], [recX]⟩ simpleGet okClient
  refine ⟨h.1, h.2.2.1 ?_, h.2.2.2.1, h.2.2.2.2⟩
  rw [serveHTTP_simpleGet]

/-- C1: after pushing N ≥ 2 responses and serving any number of plain
requests with no intervening clear, the queue after i requests is the
pushed list with its first min(i, N-1) entries consumed from the front —
so the last pushed response is never removed — and the i-th request
(0-based) is served response min(i, N-1) of the push order: the first N-1
requests receive responses 1..N-1 in push order, and every request from
the N-th on receives response N. -/
theorem claim_fifo_sticky_policy (L : List PredefinedServerResponse)
    (hN : 2 ≤ L.length) (k : Nat) :
    (∀ i, i ≤ L.length + k →
        (runRequests (pushAll emptyServer L) i).1.responses
          = L.drop (min i (L.length - 1))) ∧
    (∀ i, i < L.length + k →
        ((runRequests (pushAll emptyServer L) (L.length + k)).2)[i]?
          = (L[min i (L.length - 1)]?).map (fun resp => renderSink okClient resp)) := by
  have hL : L ≠ [] := by
    intro hnil
    rw [hnil] at hN
    simp at hN
  have hp : pushAll emptyServer L = ⟨L, []⟩ := by
    rw [pushAll_def]
    rfl
  constructor
  · intro i _
    rw [hp]
    exact runRequests_state i L [] hL
  · intro i hi
    rw [hp]
    exact runRequests_served (L.length + k) L [] i hL hi

/-- Witness for C1: two pushed responses, three requests — the second
response sticks. -/
theorem claim_fifo_sticky_policy_witness :
    (runRequests (pushAll emptyServer [respA, respB]) 3).1.responses = [respB] ∧
    ((runRequests (pushAll emptyServer [respA, respB]) 3).2)[0]?
      = some (renderSink okClient respA) ∧
    ((runRequests (pushAll emptyServer [respA, respB]) 3).2)[2]?
      = some (renderSink okClient respB) := by
  have h := claim_fifo_sticky_policy [respA, respB] (by decide) 1
  refine ⟨?_, ?_, ?_⟩
  · have h1 := h.1 3 (by decide)
    simpa using h1
  · have h2 := h.2 0 (by decide)
    simpa using h2
  · have h3 := h.2 2 (by decide)
    simpa using h3

/-- C6 counterexample: for the form-urlencoded wire body "b=2&a=1" the
handler captures the raw wire bytes, while re-encoding the parsed form
sorts the keys to "a=1&b=2" — so the captured buffer does not equal the
re-encoding of the parsed form values, refuting the claim as stated. -/
theorem claim_body_capture_counterexample :
    (serveHTTP emptyServer (formPost "b=2&a=1") okClient).1.records.getLast?.map
        (fun sr => sr.requestBody) = some "b=2&a=1" ∧
    (parseQuery "b=2&a=1").map encodeValues = some "a=1&b=2" ∧
    (serveHTTP emptyServer (formPost "b=2&a=1") okClient).1.records.getLast?.map
        (fun sr => sr.requestBody) ≠ (parseQuery "b=2&a=1").map encodeValues := by
  refine ⟨?_, ?_, ?_⟩ <;> decide

/-- C6 (amended): a request with a non-form content type and a fully
readable body yields a record whose captured buffer is byte-identical to
the sent bytes; a form-urlencoded POST yields a captured buffer
byte-identical to the raw wire body, which therefore equals the
re-encoding of the parsed form values exactly when the wire body is
already in canonical encoded order (as bodies produced by
url.Values.Encode are). -/
theorem claim_body_capture_amended (srv : HTTPTestServer) (client : Sink)
    (wire : String) (r : Request) :
    (r.contentType ≠ formCT → r.body = ReadOutcome.ok wire →
        (serveHTTP srv r client).1.records.getLast?.map (fun sr => sr.requestBody)
          = some wire) ∧
    (r = formPost wire →
        (serveHTTP srv r client).1.records.getLast?.map (fun sr => sr.requestBody)
            = some wire ∧
        (∀ vs, parseQuery wire = some vs → encodeValues vs = wire →
            (serveHTTP srv r client).1.records.getLast?.map (fun sr => sr.requestBody)
              = some (encodeValues vs))) := by
  have hlast : (serveHTTP srv r client).1.records.getLast?.map (fun sr => sr.requestBody)
      = some (teeCaptured r) := by
    rw [serve_records_last]
    simp
  constructor
  · intro hct hbody
    rw [hlast]
    unfold teeCaptured
    have hdc : drainCondition (teeBody r.body) r.contentType = true := by
      simp [drainCondition, teeBody, bne_iff_ne]
      exact hct
    rw [if_pos hdc, hbody, parseFormModel_ok_empty_snd]
    simp
  · intro hr
    subst hr
    have hcap : teeCaptured (formPost wire) = wire := by
      have hdc : drainCondition (teeBody (formPost wire).body) (formPost wire).contentType
          = false := by
        simp [drainCondition, teeBody, formPost]
      unfold teeCaptured
      rw [if_neg ?_]
      · show (parseFormModel (formPost wire) (formPost wire).body).2 = wire
        exact parseFormModel_formPost_snd wire
      · rw [hdc]
        simp
    rw [hlast, hcap]
    refine ⟨rfl, ?_⟩
    intro vs hparse henc
    rw [henc]

/-- Witness for the amended C6 at concrete inputs: a non-form JSON body
and a canonical form body. -/
theorem claim_body_capture_amended_witness :
    ((serveHTTP emptyServer ⟨"POST", "application/json", "",
          ReadOutcome.ok "{}"⟩ okClient).1.records.getLast?).map
        (fun sr => sr.requestBody) = some "{}" ∧
    (serveHTTP emptyServer (formPost "a=1&b=2") okClient).1.records.getLast?.map
        (fun sr => sr.requestBody) = some (encodeValues [("a", ["1"]), ("b", ["2"])]) := by
  constructor
  · exact (claim_body_capture_amended emptyServer okClient "{}"
      ⟨"POST", "application/json", "", ReadOutcome.ok "{}"⟩).1 (by decide) rfl
  · exact ((claim_body_capture_amended emptyServer okClient "a=1&b=2"
      (formPost "a=1&b=2")).2 rfl).2 [("a", ["1"]), ("b", ["2"])] (by decide) (by decide)

/-- C10: the skip-drain decision is exact string equality of the raw
Content-Type header value with "application/x-www-form-urlencoded": the
condition equals that string inequality for every body, because after the
tee is installed the body field always holds a non-nil reader, so the
nil-body guard is vacuous; a form media type carrying a parameter (such
as a charset) is therefore drained in full before form parsing, and the
record captures the whole wire body. -/
theorem claim_drain_exact_match (b : ReadOutcome) (ct : String) (srv : HTTPTestServer)
    (client : Sink) (w : String) :
    drainCondition (teeBody b) ct = (ct != formCT) ∧
    (teeBody b).isSome = true ∧
    drainCondition (teeBody b) (formCT ++ "; charset=utf-8") = true ∧
    ((serveHTTP srv ⟨"POST", formCT ++ "; charset=utf-8", "",
          ReadOutcome.ok w⟩ client).1.records.getLast?).map
        (fun sr => sr.requestBody) = some w := by
  have hform : ((formCT ++ "; charset=utf-8") != formCT) = true := by decide
  refine ⟨by simp [drainCondition, teeBody],
          rfl,
          by simp [drainCondition, teeBody, hform],
          ?_⟩
  have hcap : teeCaptured ⟨"POST", formCT ++ "; charset=utf-8", "", ReadOutcome.ok w⟩ = w := by
    unfold teeCaptured
    rw [if_pos (by simp [drainCondition, teeBody, hform]), parseFormModel_ok_empty_snd]
    simp
  rw [serve_records_last]
  simp [hcap]

/-- Witness for C5: three sinks with the middle one failing — the write
stops at it, returns its scripted result, and never touches the third. -/
theorem claim_write_first_failure_wins_witness :
    (mtwWrite [okClient, failSink, okClient] "ab").2.2 = (0, some errBoom) ∧
    (mtwWrite [okClient, failSink, okClient] "ab").2.1
      = [MWEvent.evWrite 0 "ab", MWEvent.evWrite 1 "ab"] ∧
    (mtwWrite [okClient, failSink, okClient] "ab").1[2]? = some okClient := by
  have h := (claim_write_first_failure_wins [okClient, failSink, okClient] "ab").1 1 (by decide)
  refine ⟨?_, ?_, ?_⟩
  · rw [h.1]
    decide
  · rw [h.2.1]
    decide
  · rw [h.2.2 2 (by decide)]
    decide
